import Mathlib

/-!
Verification of the document identity / analysis-lifecycle / dual-purpose
controller of the AI-Contract-Review-Platform repository.

Pure frontend helpers (file validation, storage clearing, risk formatting,
risk distribution, chat-history conversion) are embedded directly from the
TypeScript sources.  The backend (upload deduplication, analysis
orchestration, cross-purpose confirmation, chat persistence, risk
aggregation) is not part of the source tree; those operations are modelled
from the spec, as marked on each definition.
-/

namespace ContractReview

/-! ## Character-list string primitives

JavaScript `String.prototype.startsWith` and `String.prototype.includes`
are modelled on the underlying character lists. -/

/-- Predicate `charsHasPre p s` is true when the character list `p` is an initial
segment of `s` (JS `startsWith` on decoded strings). -/
def charsHasPre : List Char → List Char → Bool
  | [], _ => true
  | _ :: _, [] => false
  | p :: ps, c :: cs => p == c && charsHasPre ps cs

/-- Predicate `charsContainsSub p s` is true when `p` occurs contiguously somewhere in
`s` (JS `includes` on decoded strings). -/
def charsContainsSub (p : List Char) : List Char → Bool
  | [] => charsHasPre p []
  | c :: cs => charsHasPre p (c :: cs) || charsContainsSub p cs

/-- JS `s.startsWith(p)`. -/
def strStartsWith (s p : String) : Bool := charsHasPre p.data s.data

/-- JS `s.includes(p)`. -/
def strIncludes (s p : String) : Bool := charsContainsSub p.data s.data

/-! ## File validation (src/unnamed/part_006, `validateFileType` /
`validateFileSize`; src/frontend/src/constants/index.ts, `FILE_CONFIG`) -/

/-- The `allowedTypes` array of `validateFileType`. -/
def allowedTypes : List String :=
  ["application/pdf",
   "application/vnd.openxmlformats-officedocument.wordprocessingml.document",
   "text/plain"]

/-- Function `validateFileType` from src/unnamed/part_006: membership of the file's
MIME type in `allowedTypes`. -/
def validateFileType (fileType : String) : Bool :=
  allowedTypes.contains fileType

/-- Constant `FILE_CONFIG.MAX_SIZE` from src/frontend/src/constants/index.ts, also
the default `maxSize` of `validateFileSize`: `10 * 1024 * 1024`. -/
def FILE_MAX_SIZE : Nat := 10 * 1024 * 1024

/-- Function `validateFileSize` from src/unnamed/part_006: `file.size <= maxSize`. -/
def validateFileSize (fileSize maxSize : Nat) : Bool :=
  fileSize ≤ maxSize

/-! ## Storage clearing (src/unnamed/part_006, `clearAllDocumentData`) -/

/-- The removal condition of `clearAllDocumentData`: the key starts with
one of `chat_`, `voice_`, `analysis_`, `document_`, or contains
`contract` or `upload`. -/
def shouldClearKey (key : String) : Bool :=
  strStartsWith key "chat_" ||
  strStartsWith key "voice_" ||
  strStartsWith key "analysis_" ||
  strStartsWith key "document_" ||
  strIncludes key "contract" ||
  strIncludes key "upload"

/-- Function `clearAllDocumentData` from src/unnamed/part_006, acting on a
localStorage snapshot given as key/value pairs: every key satisfying
`shouldClearKey` is removed, all other entries are kept unchanged. -/
def clearAllDocumentData (store : List (String × String)) : List (String × String) :=
  store.filter (fun kv => !(shouldClearKey kv.1))

/-! ## Risk score formatting (src/frontend/src/pages/ChatWithDocPage.tsx,
`formatRiskScore`) -/

/-- Decimal digit to character. -/
def digitChar (d : Nat) : Char :=
  match d with
  | 0 => '0' | 1 => '1' | 2 => '2' | 3 => '3' | 4 => '4'
  | 5 => '5' | 6 => '6' | 7 => '7' | 8 => '8' | _ => '9'

/-- Fuel-bounded decimal rendering of a natural number. -/
def natToCharsAux : Nat → Nat → List Char
  | 0, _ => []
  | fuel + 1, n =>
    if n < 10 then [digitChar n]
    else natToCharsAux fuel (n / 10) ++ [digitChar (n % 10)]

/-- Decimal rendering of a natural number. -/
def natToStr (n : Nat) : String := ⟨natToCharsAux (n + 1) n⟩

/-- Decimal rendering of an integer. -/
def intToStr (i : ℤ) : String :=
  match i with
  | .ofNat m => natToStr m
  | .negSucc m => "-" ++ natToStr (m + 1)

/-- JS `Number.prototype.toFixed(1)` for the exact rationals that occur
here: round to the nearest tenth and print one digit after the point. -/
def toFixed1 (q : ℚ) : String :=
  intToStr (round (q * 10) / 10) ++ "." ++ natToStr (round (q * 10) % 10).natAbs

/-- Function `formatRiskScore` from ChatWithDocPage.tsx: scores `<= 1` are treated
as being on a 0–1 scale and multiplied by 100 before formatting. -/
def formatRiskScore (score : ℚ) : String :=
  if score ≤ 1 then toFixed1 (score * 100) else toFixed1 score

/-! ## Risk tier classifiers (src/unnamed/part_006, `getRiskLevel` and
`getRiskIconName`; thresholds from `RISK_LEVELS` in constants/index.ts) -/

/-- The three risk tiers implied by the UI helpers. -/
inductive Tier
  | low
  | medium
  | high
deriving DecidableEq, Repr

/-- The `level` label computed by `getRiskLevel` in src/unnamed/part_006,
with `RISK_LEVELS.LOW.threshold = 30` and `RISK_LEVELS.MEDIUM.threshold = 70`
substituted from constants/index.ts. -/
def getRiskLevelLabel (score : ℚ) : String :=
  if score ≤ 30 then "Low Risk"
  else if score ≤ 70 then "Medium Risk"
  else "High Risk"

/-- Function `getRiskIconName` from src/unnamed/part_006. -/
def getRiskIconName (score : ℚ) : String :=
  if score ≥ 70 then "AlertTriangle"
  else if score ≥ 30 then "Clock"
  else "CheckCircle"

/-- The tier a `getRiskLevel` label denotes. -/
def tierOfLabel (s : String) : Tier :=
  if s = "Low Risk" then .low
  else if s = "Medium Risk" then .medium
  else .high

/-- The tier a `getRiskIcon` / `getRiskIconName` icon denotes. -/
def tierOfIcon (s : String) : Tier :=
  if s = "AlertTriangle" then .high
  else if s = "Clock" then .medium
  else .low

/-! ## Risk assessments and their distribution
(src/frontend/src/pages/ChatWithDocPage.tsx, `getRiskDistribution`) -/

/-- ASCII lower-casing of one character (JS `toLowerCase` on the
characters occurring in severity strings). -/
def charToLower (c : Char) : Char :=
  if 65 ≤ c.toNat ∧ c.toNat ≤ 90 then Char.ofNat (c.toNat + 32) else c

/-- JS `String.prototype.toLowerCase`. -/
def strToLower (s : String) : String := ⟨s.data.map charToLower⟩

/-- A per-clause risk assessment; only the `severity` field participates in
the distribution computation, and it may be absent. -/
structure Assessment where
  severity : Option String
deriving DecidableEq, Repr

/-- The analysis payload as consumed by `getRiskDistribution`: the
`risk_assessments` field may be absent. -/
structure AnalysisData where
  risk_assessments : Option (List Assessment)
deriving DecidableEq, Repr

/-- The `{ high, medium, low }` counters of `getRiskDistribution`. -/
structure RiskDistribution where
  high : Nat
  medium : Nat
  low : Nat
deriving DecidableEq, Repr

/-- One loop iteration of `getRiskDistribution`'s `forEach`: lower-case the
optional severity and bump the matching counter, if any. -/
def distStep (d : RiskDistribution) (a : Assessment) : RiskDistribution :=
  if a.severity.map strToLower = some "high" then { d with high := d.high + 1 }
  else if a.severity.map strToLower = some "medium" then { d with medium := d.medium + 1 }
  else if a.severity.map strToLower = some "low" then { d with low := d.low + 1 }
  else d

/-- Function `getRiskDistribution` from ChatWithDocPage.tsx: all-zero counts when there is
no analysis, otherwise a fold of `distStep` over
`analysis.risk_assessments || []`. -/
def getRiskDistribution (analysis : Option AnalysisData) : RiskDistribution :=
  match analysis with
  | none => ⟨0, 0, 0⟩
  | some a => (a.risk_assessments.getD []).foldl distStep ⟨0, 0, 0⟩

/-- The case-insensitive severity test the distribution counts by. -/
def isSev (v : String) (a : Assessment) : Bool :=
  a.severity.map strToLower == some v

/-! ## Risk aggregation (Risk Aggregator component; the backend that
computes the overall score is not part of the source tree) -/

/-- Modelled from the spec: the Risk Aggregator's per-assessment weight
("high contributes most, low least"; unrecognized or missing severities are
treated as low for aggregation purposes).  The concrete weights 3/2/1 are
one admissible policy choice. -/
def severityWeight (a : Assessment) : ℕ :=
  if a.severity.map strToLower = some "high" then 3
  else if a.severity.map strToLower = some "medium" then 2
  else 1

/-- Total weight of a list of assessments. -/
def sumWeights (l : List Assessment) : ℕ := (l.map severityWeight).sum

/-- Modelled from the spec: the Risk Aggregator's overall score — a
severity-weighted function normalized to 0–100, defined as 0 for zero
assessments.  (The backend implementing `aggregate` is absent from the
source tree; this follows §4.6 of the spec.) -/
def overallScore (l : List Assessment) : ℚ :=
  if l = [] then 0 else 100 * (sumWeights l : ℚ) / (3 * l.length)

/-! ## Document store, upload reconciliation, analysis lifecycle

The backend implementing these operations is not part of the source tree
(only the frontend callers in src/unnamed/part_005 and
src/frontend/src/services are); they are modelled from the spec. -/

/-- A document purpose (spec §3, glossary). -/
inductive Purpose
  | analysis
  | chat
deriving DecidableEq, Repr

/-- Analysis status; `failed` is not a persisted state (spec §4.2: failure
is converted into deletion). -/
inductive AnalysisStatus
  | pending
  | completed
deriving DecidableEq, Repr

/-- Modelled from the spec: the Document entity (§3).  The fingerprint is
the content/owner pair itself — the idealization of a collision-free
digest over content and owner (§4.1). -/
structure Document where
  id : Nat
  owner : Nat
  content : List Nat
  purposes : List Purpose
  status : AnalysisStatus
deriving DecidableEq, Repr

/-- Modelled from the spec: the Document Store Gateway's state — the rows
plus a fresh-id counter. -/
structure Store where
  docs : List Document
  nextId : Nat
deriving DecidableEq, Repr

/-- Fingerprint match: same content bytes and same owner (§4.1: no
cross-owner deduplication). -/
def matchesFp (content : List Nat) (owner : Nat) (d : Document) : Bool :=
  d.content == content && d.owner == owner

/-- Number of rows holding the given fingerprint. -/
def countFp (st : Store) (content : List Nat) (owner : Nat) : Nat :=
  st.docs.countP (matchesFp content owner)

/-- The Purpose Reconciler's decision object (spec §3, UploadDecision). -/
inductive UploadDecision
  | created (d : Document)
  | existingSamePurpose (d : Document)
  | existingCrossPurpose (d : Document) (requested : Purpose)
deriving DecidableEq, Repr

/-- Whether the decision created a new row. -/
def UploadDecision.isNewDoc : UploadDecision → Bool
  | .created _ => true
  | _ => false

/-- The existing document carried by a duplicate decision (the
`existing_document` field of the upload response seen by `handleUpload` in
src/unnamed/part_005). -/
def UploadDecision.existingDoc : UploadDecision → Option Document
  | .created _ => none
  | .existingSamePurpose d => some d
  | .existingCrossPurpose d _ => some d

/-- Modelled from the spec: `resolveUpload` (§4.3 Purpose Reconciler) —
create on unknown fingerprint, otherwise return the existing document
without mutation, distinguishing same-purpose from cross-purpose. -/
def resolveUpload (st : Store) (content : List Nat) (owner : Nat) (p : Purpose) :
    UploadDecision × Store :=
  match st.docs.find? (matchesFp content owner) with
  | some d =>
      if p ∈ d.purposes then (.existingSamePurpose d, st)
      else (.existingCrossPurpose d p, st)
  | none =>
      (.created ⟨st.nextId, owner, content, [p], .pending⟩,
       ⟨st.docs ++ [⟨st.nextId, owner, content, [p], .pending⟩], st.nextId + 1⟩)

/-- Errors of the HTTP-ish surface (spec §7). -/
inductive ApiError
  | notFound
  | analysisFailedRemoved
deriving DecidableEq, Repr

/-- Outcome of one call to the external Analysis Capability (spec §6);
timeout, quota and malformed output all collapse to `failure`. -/
inductive CapabilityResult
  | success
  | failure
deriving DecidableEq, Repr

/-- Modelled from the spec: deletion of a Document row. -/
def deleteDoc (st : Store) (i : Nat) : Store :=
  { st with docs := st.docs.filter (fun d => !(d.id == i)) }

/-- Modelled from the spec: `startAnalysis` (§4.2 Analysis Orchestrator) —
`NotFound` if the id is absent; on capability success mark the document
`completed`; on capability failure delete the row and signal the
distinguishable "analysis failed, resource removed" error.  Client-driven
`triggerAnalysis` re-invokes this same operation (§4.2 Retry). -/
def startAnalysis (st : Store) (i : Nat) (r : CapabilityResult) :
    Except ApiError Document × Store :=
  match st.docs.find? (fun d => d.id == i) with
  | none => (.error .notFound, st)
  | some d =>
    match r with
    | .success =>
        (.ok { d with status := .completed },
         ⟨st.docs.map fun x =>
            if x.id == i then { d with status := AnalysisStatus.completed } else x,
          st.nextId⟩)
    | .failure => (.error .analysisFailedRemoved, deleteDoc st i)

/-- Modelled from the spec: `getDocument` of the HTTP-ish surface (§6). -/
def getDocument (st : Store) (i : Nat) : Except ApiError Document :=
  match st.docs.find? (fun d => d.id == i) with
  | some d => .ok d
  | none => .error .notFound

/-- Add a purpose by set union (spec §4.4: union, not replacement). -/
def addPurpose (ps : List Purpose) (p : Purpose) : List Purpose :=
  if p ∈ ps then ps else ps ++ [p]

/-- Modelled from the spec: `confirmCrossPurpose` (§4.4) — idempotently
extend the existing Document's purpose set and return the updated
document; state error when the document no longer exists. -/
def confirmCrossPurpose (st : Store) (i : Nat) (p : Purpose) :
    Except ApiError (Document × Store) :=
  match st.docs.find? (fun d => d.id == i) with
  | none => .error .notFound
  | some d =>
      .ok ({ d with purposes := addPurpose d.purposes p },
           ⟨st.docs.map fun x =>
              if x.id == i then { d with purposes := addPurpose d.purposes p } else x,
            st.nextId⟩)

/-! ## The upload modal's analysis-failure handling
(src/unnamed/part_005, `handleUpload` / `handleRetryAnalysis`) -/

/-- The component state touched by the catch blocks of `handleUpload` and
`handleRetryAnalysis`. -/
structure UploadModalState where
  uploadedDocumentId : Option String
  file : Option String
  analysisError : Option String
deriving DecidableEq, Repr

/-- The catch block of `handleUpload` / `handleRetryAnalysis` in
src/unnamed/part_005: an error message containing "404" clears the stored
document id and file (re-upload required); any other message is shown and
the stored id is kept for retry. -/
def handleAnalysisCatch (st : UploadModalState) (errMsg : String) : UploadModalState :=
  if strIncludes errMsg "404" then
    { uploadedDocumentId := none, file := none,
      analysisError :=
        some "Document was removed due to analysis failure. Please upload the file again." }
  else
    { st with analysisError := some errMsg }

/-! ## Chat persistence and history
(backend modelled from spec §4.5; the record-to-display conversion is
embedded from `loadChatHistory` in
src/frontend/src/pages/ChatWithDocPage.tsx) -/

/-- A stored chat record in the database format consumed by
`loadChatHistory`: a `message_type` discriminator, an optional user
`message`, an optional assistant `response`, and a creation timestamp. -/
structure StoredMsg where
  id : Nat
  documentId : Nat
  message_type : String
  message : Option String
  response : Option String
  timestamp : Nat
deriving DecidableEq, Repr

/-- Modelled from the spec: `appendMessage` (§4.5) appends at the end with
a strictly increasing timestamp and never reorders prior messages. -/
def appendMessage (chat : List StoredMsg) (m : StoredMsg) : Option (List StoredMsg) :=
  if chat.all (fun x => x.timestamp < m.timestamp) then some (chat ++ [m]) else none

/-- Chat stores reachable from the empty store by `appendMessage`
(messages are append-only and immutable once stored, spec §3). -/
inductive ChatBuilt : List StoredMsg → Prop
  | nil : ChatBuilt []
  | append (c : List StoredMsg) (m : StoredMsg) (c2 : List StoredMsg) :
      ChatBuilt c → appendMessage c m = some c2 → ChatBuilt c2

/-- Modelled from the spec: `getHistory` (§4.5) — all messages of the
document in stored (creation) order; an empty list is a valid result;
`NotFound` only when the document itself does not exist. -/
def getHistory (st : Store) (chat : List StoredMsg) (i : Nat) :
    Except ApiError (List StoredMsg) :=
  if st.docs.any (fun d => d.id == i) then
    .ok (chat.filter (fun m => m.documentId == i))
  else .error .notFound

/-- A displayed chat message in the `ChatMessage` format built by
`loadChatHistory`. -/
structure DisplayMsg where
  id : String
  type : String
  content : String
  timestamp : Nat
deriving DecidableEq, Repr

/-- The per-record body of `loadChatHistory`'s `forEach` in
ChatWithDocPage.tsx: a record of type `user` with a `message` yields a
user display message, a record of type `assistant` with a `response`
yields an ai display message, anything else contributes nothing. -/
def convertMsg (m : StoredMsg) : List DisplayMsg :=
  (if m.message_type == "user" then
    match m.message with
    | some txt => [⟨"user-" ++ natToStr m.id, "user", txt, m.timestamp⟩]
    | none => []
   else []) ++
  (if m.message_type == "assistant" then
    match m.response with
    | some txt => [⟨"ai-" ++ natToStr m.id, "ai", txt, m.timestamp⟩]
    | none => []
   else [])

/-- The whole conversion loop of `loadChatHistory`: the records are
processed in order and their display messages concatenated. -/
def formatMessages : List StoredMsg → List DisplayMsg
  | [] => []
  | m :: rest => convertMsg m ++ formatMessages rest

/-- A concrete one-document store used to instantiate the lifecycle
theorems. -/
def demoDoc : Document := ⟨0, 0, [1, 2], [.analysis], .pending⟩

/-- The store holding exactly `demoDoc`. -/
def demoStore : Store := ⟨[demoDoc], 1⟩

end ContractReview

namespace ContractReview

/-- The fold of `distStep` counts each severity bucket independently. -/
lemma foldl_distStep (l : List Assessment) (d : RiskDistribution) :
    l.foldl distStep d =
      ⟨d.high + l.countP (isSev "high"),
       d.medium + l.countP (isSev "medium"),
       d.low + l.countP (isSev "low")⟩ := by
  induction l generalizing d with
  | nil => simp
  | cons a l ih =>
    rw [List.foldl_cons, ih]
    simp only [List.countP_cons, isSev, distStep]
    by_cases h1 : a.severity.map strToLower = some "high"
    · simp [h1, RiskDistribution.mk.injEq]
      omega
    · by_cases h2 : a.severity.map strToLower = some "medium"
      · simp [h1, h2, RiskDistribution.mk.injEq]
        omega
      · by_cases h3 : a.severity.map strToLower = some "low"
        · simp [h1, h2, h3, RiskDistribution.mk.injEq]
          omega
        · simp [h1, h2, h3]

/-- Each severity weight is at most 3. -/
lemma severityWeight_le_three (a : Assessment) : severityWeight a ≤ 3 := by
  unfold severityWeight
  split_ifs <;> omega

/-- The total weight of a list is at most 3 per assessment. -/
lemma sumWeights_le (l : List Assessment) : sumWeights l ≤ 3 * l.length := by
  induction l with
  | nil => simp [sumWeights]
  | cons a l ih =>
    have := severityWeight_le_three a
    simp only [sumWeights, List.map_cons, List.sum_cons, List.length_cons] at *
    omega

/-- C7: File validation accepts a file iff its MIME type is one of
{application/pdf, DOCX, text/plain} and its size is at most
10 * 1024 * 1024 bytes. -/
theorem file_validation_iff (t : String) (sz : Nat) :
    (validateFileType t && validateFileSize sz FILE_MAX_SIZE) = true ↔
      ((t = "application/pdf" ∨
        t = "application/vnd.openxmlformats-officedocument.wordprocessingml.document" ∨
        t = "text/plain") ∧ sz ≤ 10 * 1024 * 1024) := by
  simp [validateFileType, validateFileSize, allowedTypes, FILE_MAX_SIZE]

/-- C8: `clearAllDocumentData` removes exactly the keys matching
`shouldClearKey` (prefixes chat_/voice_/analysis_/document_ or substrings
`contract`/`upload`); every other entry survives unchanged; `auth_token`
and `user_data` are kept, and an unrelated key merely containing `upload`
is deleted. -/
theorem clearAllDocumentData_exact (store : List (String × String)) :
    (∀ kv : String × String,
        kv ∈ clearAllDocumentData store ↔ kv ∈ store ∧ shouldClearKey kv.1 = false) ∧
      shouldClearKey "auth_token" = false ∧
      shouldClearKey "user_data" = false ∧
      shouldClearKey "my_upload_settings" = true := by
  refine ⟨fun kv => ?_, by decide, by decide, by decide⟩
  simp [clearAllDocumentData]

/-- Helper: evaluate `toFixed1` once `q * 10` is known to be a natural
number. -/
lemma toFixed1_of_mul_eq (q : ℚ) (n : ℕ) (h : q * 10 = (n : ℚ)) :
    toFixed1 q = intToStr ((n : ℤ) / 10) ++ "." ++ natToStr (((n : ℤ)) % 10).natAbs := by
  unfold toFixed1
  rw [h, round_natCast]

/-- C9: `formatRiskScore` multiplies by 100 exactly when the score is at
most 1 and formats the score directly otherwise; consequently a genuine
0–100-scale score of exactly 1 is displayed as "100.0", not as the "1.0"
that direct formatting would produce. -/
theorem formatRiskScore_spec :
    (∀ score : ℚ, score ≤ 1 → formatRiskScore score = toFixed1 (score * 100)) ∧
    (∀ score : ℚ, 1 < score → formatRiskScore score = toFixed1 score) ∧
    formatRiskScore 1 = "100.0" ∧ toFixed1 1 = "1.0" := by
  refine ⟨fun score h => ?_, fun score h => ?_, ?_, ?_⟩
  · simp [formatRiskScore, h]
  · simp [formatRiskScore, not_le.mpr h]
  · have h1 : formatRiskScore 1 = toFixed1 (1 * 100) := by
      simp [formatRiskScore]
    rw [h1, toFixed1_of_mul_eq (1 * 100) 1000 (by norm_num)]
    decide
  · rw [toFixed1_of_mul_eq 1 10 (by norm_num)]
    decide

/-- C10 counterexample: at score 30 the two classifiers disagree —
`getRiskLevel` labels it "Low Risk" (low tier) while `getRiskIconName`
yields "Clock" (medium tier); likewise they disagree at 70. -/
theorem riskTier_boundary_disagreement :
    tierOfLabel (getRiskLevelLabel 30) = Tier.low ∧
    tierOfIcon (getRiskIconName 30) = Tier.medium ∧
    tierOfLabel (getRiskLevelLabel 30) ≠ tierOfIcon (getRiskIconName 30) ∧
    tierOfLabel (getRiskLevelLabel 70) = Tier.medium ∧
    tierOfIcon (getRiskIconName 70) = Tier.high := by
  refine ⟨by decide, by decide, by decide, by decide, by decide⟩

/-- C10 (amended): away from the boundary scores 30 and 70 the tier
assigned by `getRiskLevel` agrees with the tier implied by the risk icon. -/
theorem riskTier_agreement_off_boundary (score : ℚ)
    (h30 : score ≠ 30) (h70 : score ≠ 70) :
    tierOfLabel (getRiskLevelLabel score) = tierOfIcon (getRiskIconName score) := by
  rcases lt_trichotomy score 30 with h | h | h
  · have e1 : getRiskLevelLabel score = "Low Risk" := by
      unfold getRiskLevelLabel; rw [if_pos h.le]
    have e2 : getRiskIconName score = "CheckCircle" := by
      unfold getRiskIconName
      rw [if_neg (not_le.mpr (by linarith)), if_neg (not_le.mpr h)]
    rw [e1, e2]; decide
  · exact absurd h h30
  · rcases lt_trichotomy score 70 with h2 | h2 | h2
    · have e1 : getRiskLevelLabel score = "Medium Risk" := by
        unfold getRiskLevelLabel
        rw [if_neg (not_le.mpr h), if_pos h2.le]
      have e2 : getRiskIconName score = "Clock" := by
        unfold getRiskIconName
        rw [if_neg (not_le.mpr h2), if_pos h.le]
      rw [e1, e2]; decide
    · exact absurd h2 h70
    · have e1 : getRiskLevelLabel score = "High Risk" := by
        unfold getRiskLevelLabel
        rw [if_neg (not_le.mpr h), if_neg (not_le.mpr h2)]
      have e2 : getRiskIconName score = "AlertTriangle" := by
        unfold getRiskIconName
        rw [if_pos h2.le]
      rw [e1, e2]; decide

/-- C10 witness: the amended agreement instantiated at score 50. -/
theorem riskTier_agreement_off_boundary_witness :
    tierOfLabel (getRiskLevelLabel 50) = tierOfIcon (getRiskIconName 50) :=
  riskTier_agreement_off_boundary 50 (by decide) (by decide)

/-- C4: each bucket of `getRiskDistribution` counts exactly the assessments
whose lower-cased severity equals that bucket's name (so unrecognized or
missing severities are counted nowhere); a missing analysis or a missing
`risk_assessments` field yields all-zero counts, and the overall score of
the empty assessment list is 0. -/
theorem riskDistribution_spec :
    (∀ (a : AnalysisData) (l : List Assessment), a.risk_assessments = some l →
        getRiskDistribution (some a) =
          ⟨l.countP (isSev "high"), l.countP (isSev "medium"), l.countP (isSev "low")⟩) ∧
    getRiskDistribution none = ⟨0, 0, 0⟩ ∧
    (∀ a : AnalysisData, a.risk_assessments = none →
        getRiskDistribution (some a) = ⟨0, 0, 0⟩) ∧
    overallScore [] = 0 := by
  refine ⟨fun a l h => ?_, rfl, fun a h => ?_, by simp [overallScore]⟩
  · simp [getRiskDistribution, h, foldl_distStep]
  · simp [getRiskDistribution, h]

/-- C4 witness: the count characterization applied to a concrete payload —
one high assessment, one with an unrecognized severity and one with no
severity give distribution `{high := 1, medium := 0, low := 0}`. -/
theorem riskDistribution_spec_witness :
    getRiskDistribution
        (some ⟨some [⟨some "High"⟩, ⟨some "weird"⟩, ⟨none⟩]⟩) =
      ⟨([⟨some "High"⟩, ⟨some "weird"⟩, ⟨none⟩] : List Assessment).countP (isSev "high"),
       ([⟨some "High"⟩, ⟨some "weird"⟩, ⟨none⟩] : List Assessment).countP (isSev "medium"),
       ([⟨some "High"⟩, ⟨some "weird"⟩, ⟨none⟩] : List Assessment).countP (isSev "low")⟩ :=
  riskDistribution_spec.1 ⟨some [⟨some "High"⟩, ⟨some "weird"⟩, ⟨none⟩]⟩
    [⟨some "High"⟩, ⟨some "weird"⟩, ⟨none⟩] rfl

/-- C5: the spec-modelled aggregate is monotonic — appending a
high-severity assessment to a non-empty list never decreases the overall
score; the score of zero assessments is 0; and `[high, medium, low]`
aggregates strictly higher than `[low, low, low]`. -/
theorem aggregate_props :
    (∀ (l : List Assessment) (a : Assessment), l ≠ [] →
        a.severity.map strToLower = some "high" →
        overallScore l ≤ overallScore (l ++ [a])) ∧
    overallScore [] = 0 ∧
    overallScore [⟨some "low"⟩, ⟨some "low"⟩, ⟨some "low"⟩] <
      overallScore [⟨some "high"⟩, ⟨some "medium"⟩, ⟨some "low"⟩] := by
  have w_low : severityWeight ⟨some "low"⟩ = 1 := by decide
  have w_med : severityWeight ⟨some "medium"⟩ = 2 := by decide
  have w_high : severityWeight ⟨some "high"⟩ = 3 := by decide
  refine ⟨fun l a hne ha => ?_, by simp [overallScore], ?_⟩
  · have hw : severityWeight a = 3 := by simp [severityWeight, ha]
    have hlen : 1 ≤ l.length := List.length_pos.mpr hne
    have hsum : sumWeights l ≤ 3 * l.length := sumWeights_le l
    have happ : sumWeights (l ++ [a]) = sumWeights l + 3 := by
      simp [sumWeights, hw]
    have hlapp : (l ++ [a]).length = l.length + 1 := by simp
    unfold overallScore
    rw [if_neg hne, if_neg (by simp), happ, hlapp]
    have hnq : (1 : ℚ) ≤ (l.length : ℚ) := by exact_mod_cast hlen
    have hsq : (sumWeights l : ℚ) ≤ 3 * (l.length : ℚ) := by exact_mod_cast hsum
    rw [div_le_div_iff₀ (by linarith) (by push_cast; linarith)]
    push_cast
    nlinarith [hsq, hnq]
  · have e1 : overallScore [⟨some "low"⟩, ⟨some "low"⟩, ⟨some "low"⟩] =
        100 * (3 : ℚ) / (3 * 3) := by
      rw [overallScore, if_neg (by simp)]
      simp [sumWeights, w_low]
    have e2 : overallScore [⟨some "high"⟩, ⟨some "medium"⟩, ⟨some "low"⟩] =
        100 * (6 : ℚ) / (3 * 3) := by
      rw [overallScore, if_neg (by simp)]
      norm_num [sumWeights, w_low, w_med, w_high]
    rw [e1, e2]
    norm_num

/-- C5 witness: monotonicity applied at the concrete list `[low]` with a
`high` assessment appended. -/
theorem aggregate_props_witness :
    overallScore [⟨some "low"⟩] ≤
      overallScore ([⟨some "low"⟩] ++ [(⟨some "high"⟩ : Assessment)]) :=
  aggregate_props.1 [⟨some "low"⟩] ⟨some "high"⟩ (by decide) (by decide)

/-- C9 witness: the 0–1-scale branch applied at score 0. -/
theorem formatRiskScore_spec_witness :
    formatRiskScore 0 = toFixed1 (0 * 100) :=
  formatRiskScore_spec.1 0 (by decide)

/-- After any upload of some content, at least one row holds its
fingerprint. -/
lemma countFp_resolveUpload_pos (st : Store) (content : List Nat) (owner : Nat)
    (p : Purpose) :
    1 ≤ countFp (resolveUpload st content owner p).2 content owner := by
  cases hfind : st.docs.find? (matchesFp content owner) with
  | none =>
    have hnew : matchesFp content owner ⟨st.nextId, owner, content, [p], .pending⟩ = true := by
      simp [matchesFp]
    simp [resolveUpload, hfind, countFp, List.countP_append, hnew]
  | some d =>
    have hd : matchesFp content owner d = true := List.find?_some hfind
    have hmem : d ∈ st.docs := List.mem_of_find?_eq_some hfind
    have hpos : 0 < st.docs.countP (matchesFp content owner) :=
      List.countP_pos_iff.mpr ⟨d, hmem, hd⟩
    by_cases hp : p ∈ d.purposes <;> simp [resolveUpload, hfind, hp, countFp] <;>
      simpa using hpos

/-- An upload whose fingerprint is already present creates nothing,
leaves the store unchanged and resolves to the stored document. -/
lemma resolveUpload_existing (st : Store) (content : List Nat) (owner : Nat)
    (p : Purpose) (h : 1 ≤ countFp st content owner) :
    (resolveUpload st content owner p).1.isNewDoc = false ∧
    (resolveUpload st content owner p).2 = st ∧
    ∃ d, (resolveUpload st content owner p).1.existingDoc = some d ∧
      d ∈ st.docs ∧ d.content = content ∧ d.owner = owner := by
  cases hfind : st.docs.find? (matchesFp content owner) with
  | none =>
    exfalso
    have hpos : 0 < st.docs.countP (matchesFp content owner) := h
    obtain ⟨d, hmem, hd⟩ := List.countP_pos_iff.mp hpos
    exact (List.find?_eq_none.mp hfind d hmem) hd
  | some d =>
    have hd : matchesFp content owner d = true := List.find?_some hfind
    have hmem : d ∈ st.docs := List.mem_of_find?_eq_some hfind
    have hco : d.content = content ∧ d.owner = owner := by
      simpa [matchesFp] using hd
    by_cases hp : p ∈ d.purposes
    · refine ⟨?_, ?_, d, ?_, hmem, hco.1, hco.2⟩ <;>
        simp [resolveUpload, hfind, hp, UploadDecision.isNewDoc, UploadDecision.existingDoc]
    · refine ⟨?_, ?_, d, ?_, hmem, hco.1, hco.2⟩ <;>
        simp [resolveUpload, hfind, hp, UploadDecision.isNewDoc, UploadDecision.existingDoc]

/-- Uploading a fresh fingerprint takes its row count from 0 to exactly 1. -/
lemma countFp_resolveUpload_of_zero (st : Store) (content : List Nat) (owner : Nat)
    (p : Purpose) (h : countFp st content owner = 0) :
    countFp (resolveUpload st content owner p).2 content owner = 1 := by
  cases hfind : st.docs.find? (matchesFp content owner) with
  | some d =>
    exfalso
    have hd : matchesFp content owner d = true := List.find?_some hfind
    have hmem : d ∈ st.docs := List.mem_of_find?_eq_some hfind
    have hpos : 0 < st.docs.countP (matchesFp content owner) :=
      List.countP_pos_iff.mpr ⟨d, hmem, hd⟩
    unfold countFp at h
    omega
  | none =>
    have hnew : matchesFp content owner ⟨st.nextId, owner, content, [p], .pending⟩ = true := by
      simp [matchesFp]
    unfold countFp at h
    simp [resolveUpload, hfind, countFp, List.countP_append, hnew, h]

/-- C1: for a pair of byte-identical uploads by the same owner, at most
one Document is created: after the first upload the fingerprint is stored,
and the second upload creates nothing, leaves the store unchanged, and
carries the existing stored document (the `existing_document` case of the
upload response); when the fingerprint was fresh, exactly one row holds it
after both uploads. -/
theorem upload_idempotent_fingerprint (st : Store) (content : List Nat) (owner : Nat)
    (p q : Purpose) :
    1 ≤ countFp (resolveUpload st content owner p).2 content owner ∧
    (resolveUpload (resolveUpload st content owner p).2 content owner q).1.isNewDoc = false ∧
    (resolveUpload (resolveUpload st content owner p).2 content owner q).2 =
      (resolveUpload st content owner p).2 ∧
    (∃ d, (resolveUpload (resolveUpload st content owner p).2 content owner q).1.existingDoc =
        some d ∧ d ∈ (resolveUpload st content owner p).2.docs ∧
        d.content = content ∧ d.owner = owner) ∧
    (countFp st content owner = 0 →
      countFp (resolveUpload (resolveUpload st content owner p).2 content owner q).2
        content owner = 1) := by
  have h1 := countFp_resolveUpload_pos st content owner p
  obtain ⟨hnew, hst, hex⟩ :=
    resolveUpload_existing (resolveUpload st content owner p).2 content owner q h1
  refine ⟨h1, hnew, hst, hex, fun h0 => ?_⟩
  rw [hst]
  exact countFp_resolveUpload_of_zero st content owner p h0

/-- C1 witness: both uploads of content `[1, 2]` by owner 0 into the empty
store, for the analysis and then the chat purpose. -/
theorem upload_idempotent_fingerprint_witness :
    countFp (resolveUpload (resolveUpload ⟨[], 0⟩ [1, 2] 0 .analysis).2 [1, 2] 0 .chat).2
      [1, 2] 0 = 1 :=
  (upload_idempotent_fingerprint ⟨[], 0⟩ [1, 2] 0 .analysis .chat).2.2.2.2 (by decide)

/-- After deleting a document id, no row with that id can be found. -/
lemma find?_deleteDoc (st : Store) (i : Nat) :
    (deleteDoc st i).docs.find? (fun d => d.id == i) = none := by
  apply List.find?_eq_none.mpr
  intro x hx
  have hmem := List.mem_filter.mp hx
  simpa using hmem.2

/-- C2: when analysis of an existing document fails, the orchestrator
answers the distinguishable "analysis failed, resource removed" error and
deletes the row, so subsequent `getDocument` and `triggerAnalysis`
(re-invoking `startAnalysis`) on that id both answer `NotFound`; and the
upload modal's catch block maps any error message containing "404" to a
state with the stored document id and file cleared (re-upload required)
and an error shown, never keeping the old id for retry. -/
theorem analysis_failure_removes_document (st : Store) (i : Nat) (d : Document)
    (h : st.docs.find? (fun x => x.id == i) = some d) :
    (startAnalysis st i .failure).1 = .error .analysisFailedRemoved ∧
    getDocument (startAnalysis st i .failure).2 i = .error .notFound ∧
    (∀ r, (startAnalysis (startAnalysis st i .failure).2 i r).1 = .error .notFound) ∧
    (∀ (cst : UploadModalState) (msg : String), strIncludes msg "404" = true →
        (handleAnalysisCatch cst msg).uploadedDocumentId = none ∧
        (handleAnalysisCatch cst msg).file = none ∧
        (handleAnalysisCatch cst msg).analysisError ≠ none) := by
  have hdel := find?_deleteDoc st i
  have hfail : startAnalysis st i .failure = (.error .analysisFailedRemoved, deleteDoc st i) := by
    simp [startAnalysis, h]
  refine ⟨by rw [hfail], ?_, fun r => ?_, fun cst msg hmsg => ?_⟩
  · rw [hfail]
    simp [getDocument, hdel]
  · rw [hfail]
    simp [startAnalysis, hdel]
  · unfold handleAnalysisCatch
    rw [if_pos hmsg]
    exact ⟨rfl, rfl, by simp⟩

/-- C2 witness: failing the analysis of `demoDoc` makes its id
unresolvable, and a concrete "Request failed with status code 404" message
clears the modal's stored id. -/
theorem analysis_failure_removes_document_witness :
    getDocument (startAnalysis demoStore 0 .failure).2 0 = .error .notFound ∧
    (handleAnalysisCatch ⟨some "0", some "contract.pdf", none⟩
        "Request failed with status code 404").uploadedDocumentId = none :=
  ⟨(analysis_failure_removes_document demoStore 0 demoDoc (by decide)).2.1,
   ((analysis_failure_removes_document demoStore 0 demoDoc (by decide)).2.2.2
      ⟨some "0", some "contract.pdf", none⟩
      "Request failed with status code 404" (by decide)).1⟩

/-- A purpose is a member of the purpose set it was added to. -/
lemma mem_addPurpose (ps : List Purpose) (p : Purpose) : p ∈ addPurpose ps p := by
  unfold addPurpose
  split_ifs with h
  · exact h
  · exact List.mem_append.mpr (Or.inr (List.mem_singleton.mpr rfl))

/-- Adding a purpose keeps all previous purposes (union, not
replacement). -/
lemma addPurpose_keeps (ps : List Purpose) (p q : Purpose) (hq : q ∈ ps) :
    q ∈ addPurpose ps p := by
  unfold addPurpose
  split_ifs
  · exact hq
  · exact List.mem_append.mpr (Or.inl hq)

/-- Adding a purpose twice is the same as adding it once. -/
lemma addPurpose_idem (ps : List Purpose) (p : Purpose) :
    addPurpose (addPurpose ps p) p = addPurpose ps p := by
  show (if p ∈ addPurpose ps p then addPurpose ps p else addPurpose ps p ++ [p]) =
    addPurpose ps p
  rw [if_pos (mem_addPurpose ps p)]

/-- C3: confirming a cross-purpose duplicate on an existing document
succeeds with a document whose purpose set is the old set union the
requested purpose — the requested purpose is now present, every old
purpose is kept, the number of rows is unchanged (still exactly one
Document for the content), and the addition is idempotent. -/
theorem confirmCrossPurpose_spec (st : Store) (i : Nat) (p : Purpose) (d : Document)
    (h : st.docs.find? (fun x => x.id == i) = some d) :
    ∃ d2 st2, confirmCrossPurpose st i p = .ok (d2, st2) ∧
      d2.purposes = addPurpose d.purposes p ∧
      p ∈ d2.purposes ∧
      (∀ q ∈ d.purposes, q ∈ d2.purposes) ∧
      st2.docs.length = st.docs.length ∧
      addPurpose (addPurpose d.purposes p) p = addPurpose d.purposes p := by
  refine ⟨{ d with purposes := addPurpose d.purposes p },
    ⟨st.docs.map fun x =>
        if x.id == i then { d with purposes := addPurpose d.purposes p } else x,
      st.nextId⟩,
    ?_, rfl, mem_addPurpose _ _, fun q hq => addPurpose_keeps _ _ _ hq, by simp,
    addPurpose_idem _ _⟩
  simp [confirmCrossPurpose, h]

/-- C3 witness: confirming the chat purpose on `demoDoc` (whose purpose
set is `[analysis]`). -/
theorem confirmCrossPurpose_spec_witness :
    ∃ d2 st2, confirmCrossPurpose demoStore 0 .chat = .ok (d2, st2) ∧
      d2.purposes = addPurpose demoDoc.purposes .chat ∧
      Purpose.chat ∈ d2.purposes ∧
      (∀ q ∈ demoDoc.purposes, q ∈ d2.purposes) ∧
      st2.docs.length = demoStore.docs.length ∧
      addPurpose (addPurpose demoDoc.purposes .chat) .chat =
        addPurpose demoDoc.purposes .chat :=
  confirmCrossPurpose_spec demoStore 0 .chat demoDoc (by decide)

/-- Every chat store reachable by appends has non-decreasing timestamps. -/
lemma chatBuilt_pairwise (c : List StoredMsg) (h : ChatBuilt c) :
    c.Pairwise (fun a b => a.timestamp ≤ b.timestamp) := by
  induction h with
  | nil => exact List.Pairwise.nil
  | append c m c2 hc happ ih =>
    unfold appendMessage at happ
    split_ifs at happ with hall
    · cases happ
      apply List.pairwise_append.mpr
      refine ⟨ih, List.pairwise_singleton _ _, ?_⟩
      intro a ha b hb
      rw [List.mem_singleton] at hb
      subst hb
      have hlt := of_decide_eq_true (List.all_eq_true.mp hall a ha)
      exact le_of_lt hlt

/-- Every display message produced from a stored record keeps the record's
timestamp. -/
lemma convertMsg_timestamp (m : StoredMsg) :
    ∀ x ∈ convertMsg m, x.timestamp = m.timestamp := by
  intro x hx
  obtain ⟨mid, mdoc, mtype, mmsg, mresp, mts⟩ := m
  unfold convertMsg at hx
  rcases mmsg with _ | txt <;> rcases mresp with _ | rtxt <;>
    split_ifs at hx <;> simp_all

/-- Every displayed message comes from some stored record of the input. -/
lemma mem_formatMessages (l : List StoredMsg) (y : DisplayMsg)
    (hy : y ∈ formatMessages l) : ∃ b ∈ l, y ∈ convertMsg b := by
  induction l with
  | nil => simp [formatMessages] at hy
  | cons m rest ih =>
    rcases List.mem_append.mp hy with h | h
    · exact ⟨m, List.mem_cons_self _ _, h⟩
    · obtain ⟨b, hb, hyb⟩ := ih h
      exact ⟨b, List.mem_cons_of_mem _ hb, hyb⟩

/-- The conversion loop distributes over concatenation: records are
processed strictly in input order. -/
lemma formatMessages_append (l1 l2 : List StoredMsg) :
    formatMessages (l1 ++ l2) = formatMessages l1 ++ formatMessages l2 := by
  induction l1 with
  | nil => rfl
  | cons m rest ih => simp [formatMessages, ih]

/-- The conversion loop preserves non-decreasing timestamp order. -/
lemma formatMessages_pairwise (l : List StoredMsg)
    (h : l.Pairwise fun a b => a.timestamp ≤ b.timestamp) :
    (formatMessages l).Pairwise fun a b => a.timestamp ≤ b.timestamp := by
  induction l with
  | nil => exact List.Pairwise.nil
  | cons m rest ih =>
    rw [List.pairwise_cons] at h
    show (convertMsg m ++ formatMessages rest).Pairwise _
    apply List.pairwise_append.mpr
    refine ⟨?_, ih h.2, ?_⟩
    · apply List.pairwise_of_forall_mem_list
      intro a ha b hb
      rw [convertMsg_timestamp m a ha, convertMsg_timestamp m b hb]
    · intro a ha b hb
      obtain ⟨c, hc, hbc⟩ := mem_formatMessages rest b hb
      rw [convertMsg_timestamp m a ha, convertMsg_timestamp c b hbc]
      exact h.1 c hc

/-- C6: for an existing document, `getHistory` succeeds with exactly the
stored messages of that document in stored (creation) order, with
non-decreasing timestamps; an empty store yields the empty list, not an
error; and the `loadChatHistory` conversion preserves the relative order
of its input (it distributes over concatenation and keeps timestamps
non-decreasing). -/
theorem chat_history_spec (st : Store) (chat : List StoredMsg) (i : Nat)
    (hdoc : st.docs.any (fun d => d.id == i) = true)
    (hbuilt : ChatBuilt chat) :
    (∃ l, getHistory st chat i = .ok l ∧
      l.Pairwise (fun a b => a.timestamp ≤ b.timestamp) ∧
      (∀ m, m ∈ l ↔ m ∈ chat ∧ m.documentId = i) ∧
      (formatMessages l).Pairwise (fun a b => a.timestamp ≤ b.timestamp)) ∧
    getHistory st [] i = .ok [] ∧
    (∀ l1 l2 : List StoredMsg,
      formatMessages (l1 ++ l2) = formatMessages l1 ++ formatMessages l2) := by
  have hp : chat.Pairwise (fun a b => a.timestamp ≤ b.timestamp) :=
    chatBuilt_pairwise chat hbuilt
  have hfilter : (chat.filter (fun m => m.documentId == i)).Pairwise
      (fun a b => a.timestamp ≤ b.timestamp) :=
    List.Pairwise.filter (fun m => m.documentId == i) hp
  refine ⟨⟨chat.filter (fun m => m.documentId == i), ?_, hfilter, fun m => ?_,
    formatMessages_pairwise _ hfilter⟩, ?_, formatMessages_append⟩
  · simp [getHistory, hdoc]
  · simp [List.mem_filter]
  · simp [getHistory, hdoc]

/-- C6 witness: the empty chat store of `demoDoc`'s document id. -/
theorem chat_history_spec_witness :
    getHistory demoStore [] 0 = .ok [] :=
  (chat_history_spec demoStore [] 0 (by decide) ChatBuilt.nil).2.1

end ContractReview
